import Mathlib

/-!
Verification of the text-layout core of CairoSVG (`cairosvg/surface/text.py`).

The embedding below translates the two layout routines (`text`,
`text_path`) and the path measurers (`path_length`,
`point_following_path`) into Lean over real numbers.  Cairo context
calls (`move_to`, `rel_move_to`, `rotate`, `save`/`restore`) are
modelled by explicit cursor arithmetic and by records of the per-glyph
placement parameters; `text_extents` is an abstract metrics parameter;
attribute parsing (`normalize`, `units.size`) is treated as external
unit resolution, so attribute values enter the model already resolved
to numbers.  Fallible Python code (unpacking `None`, reading an unbound
local) is modelled with `Except`.
-/

namespace CairoSVGText

noncomputable section

/-- Modelled from the spec: `helpers.distance` is not under `src/`; the spec
fixes it as the Euclidean norm of the difference of the two points
("distance via Euclidean norm"). -/
def distance (x1 y1 x2 y2 : ℝ) : ℝ :=
  Real.sqrt ((x2 - x1) ^ 2 + (y2 - y1) ^ 2)

/-- Modelled from the spec: `helpers.point_angle` is not under `src/`; the spec
fixes it as the "atan2-style two-argument arctangent of (Δy, Δx)", which is
the argument of the complex number Δx + iΔy. -/
def point_angle (x1 y1 x2 y2 : ℝ) : ℝ :=
  Complex.arg ⟨x2 - x1, y2 - y1⟩

/-- One item of a flattened cairo path: `cairo.PATH_MOVE_TO` or
`cairo.PATH_LINE_TO` together with its point. -/
inductive PathItem where
  | moveTo (p : ℝ × ℝ)
  | lineTo (p : ℝ × ℝ)

/-- A flattened cairo path, as returned by `copy_path_flat`. -/
abbrev CPath := List PathItem

/-- Python runtime errors that the translated code can raise:
`TypeError` (unpacking `None`) and `NameError` (reading the unbound
`old_point` when a `LINE_TO` precedes every `MOVE_TO`). -/
inductive PyErr where
  | typeError
  | nameError

/-- Loop of `path_length`: state is the current `old_point` (unbound at
entry, hence `Option`) and the accumulated `total_length`. -/
def path_length_go : Option (ℝ × ℝ) → ℝ → CPath → Except PyErr ℝ
  | _, total, [] => .ok total
  | _, total, .moveTo p :: rest => path_length_go (some p) total rest
  | old?, total, .lineTo p :: rest =>
    match old? with
    | none => .error .nameError
    | some old =>
        path_length_go (some p) (total + distance old.1 old.2 p.1 p.2) rest

/-- `path_length(path)`: sum of Euclidean lengths of the `LINE_TO`
segments of `path`. -/
def path_length (path : CPath) : Except PyErr ℝ :=
  path_length_go none 0 path

/-- Loop of `point_following_path`: walks the path accumulating length;
at the first `LINE_TO` whose accumulated length reaches `width`, backs
off the overshoot along the segment direction from the segment's start
point.  Falling off the end of the loop is Python's implicit `None`. -/
def point_following_path_go (width : ℝ) :
    Option (ℝ × ℝ) → ℝ → CPath → Except PyErr (Option (ℝ × ℝ))
  | _, _, [] => .ok none
  | _, total, .moveTo p :: rest => point_following_path_go width (some p) total rest
  | old?, total, .lineTo p :: rest =>
    match old? with
    | none => .error .nameError
    | some old =>
        let len := distance old.1 old.2 p.1 p.2
        let total' := total + len
        if total' < width then
          point_following_path_go width (some p) total' rest
        else
          let len' := len - (total' - width)
          let ang := point_angle old.1 old.2 p.1 p.2
          .ok (some (Real.cos ang * len' + old.1, Real.sin ang * len' + old.2))

/-- `point_following_path(path, width)`: the point at distance `width`
along `path`, or `none` past the end of the path. -/
def point_following_path (path : CPath) (width : ℝ) :
    Except PyErr (Option (ℝ × ℝ)) :=
  point_following_path_go width none 0 path

/-- The cairo `text_extents` tuple
`(x_bearing, y_bearing, width, height, x_advance, y_advance)`. -/
structure TextExtents where
  x_bearing : ℝ
  y_bearing : ℝ
  width : ℝ
  height : ℝ
  x_advance : ℝ
  y_advance : ℝ

/-- `math.radians`: degrees to radians. -/
def radians (d : ℝ) : ℝ :=
  d * Real.pi / 180

/-- One character's slot of the zipped attribute arrays: the array value
at this character's index, or `none` past the array's end (Python's
`None`). -/
structure Slot where
  x? : Option ℝ
  y? : Option ℝ
  dx? : Option ℝ
  dy? : Option ℝ
  r? : Option ℝ

/-- Modelled from the spec: `helpers.zip_letters` is not under `src/`; the
spec fixes it as aligning the five attribute arrays against the string,
"one slot meant to correspond to one character index", with "missing
trailing slots ... treated as unspecified" (and excess values ignored). -/
def slotAt (xl yl dxl dyl rl : List ℝ) (i : ℕ) : Slot :=
  ⟨xl.get? i, yl.get? i, dxl.get? i, dyl.get? i, rl.get? i⟩

def zip_letters (xl yl dxl dyl rl : List ℝ) (word : List Char) :
    List (Slot × Char) :=
  word.enum.map fun ic => (slotAt xl yl dxl dyl rl ic.1, ic.2)

/-- A text node's attribute data, with parsing and unit resolution
already performed (`normalize`/`size` are external collaborators):
each array is `none` when the attribute is absent, and `rots` holds the
raw degree values (the `radians` conversion of line 107 is applied in
`textArrays`). -/
structure TextNode where
  xs : Option (List ℝ)
  ys : Option (List ℝ)
  dxs : Option (List ℝ)
  dys : Option (List ℝ)
  rots : Option (List ℝ)
  textAnchor : Option String
  content : List Char

/-- Lines 93-108: the five arrays with their defaults — `x`, `y` default
to `[]`, `dx`, `dy`, `rotate` to `[0]`, and `rotate` values are converted
from degrees to radians. -/
def textArrays (node : TextNode) : List ℝ × List ℝ × List ℝ × List ℝ × List ℝ :=
  (node.xs.getD [], node.ys.getD [], node.dxs.getD [0], node.dys.getD [0],
   (node.rots.map (List.map radians)).getD [0])

/-- Lines 110-116: the text-anchor alignment offset, from the whole
string's ink width and x-bearing. -/
def xAlign (anchor : Option String) (width x_bearing : ℝ) : ℝ :=
  if anchor = some "middle" then width / 2 + x_bearing
  else if anchor = some "end" then width + x_bearing
  else 0

/-- Line 121: `last_r = rotate[-1]`.  In every reachable state the
`rotate` list is nonempty (it defaults to `[0]` and a parsed attribute
yields at least one value), so the `getD 0` branch never fires. -/
def lastR (rotate : List ℝ) : ℝ :=
  rotate.getLast?.getD 0

/-- Lines 125-134: per-character fallback resolution — unspecified `x`
and `y` take the current cursor coordinate, unspecified `dx`, `dy` take
0, unspecified `r` takes `last_r`. -/
structure Resolved where
  x : ℝ
  y : ℝ
  dx : ℝ
  dy : ℝ
  r : ℝ

def resolveSlot (cur : ℝ × ℝ) (last_r : ℝ) (slot : Slot) : Resolved :=
  ⟨slot.x?.getD cur.1, slot.y?.getD cur.2, slot.dx?.getD 0, slot.dy?.getD 0,
   slot.r?.getD last_r⟩

/-- The composite per-character attribute resolution the program
performs at character index `i`: the zipped slot at `i` (array value or
`none`), passed through the loop's fallback resolution against the
current cursor and `last_r`. -/
def broadcastAt (node : TextNode) (cur : ℝ × ℝ) (i : ℕ) : Resolved :=
  resolveSlot cur (lastR (textArrays node).2.2.2.2)
    (slotAt (textArrays node).1 (textArrays node).2.1 (textArrays node).2.2.1
      (textArrays node).2.2.2.1 (textArrays node).2.2.2.2 i)

/-- Output of one character of explicit-array layout: the pre-rotation
anchor (`cursor_position` of line 137, the point after the backward
alignment shift), the rotation applied about it, and the character. -/
structure GlyphPlacement where
  anchor : ℝ × ℝ
  rot : ℝ
  letter : Char

/-- Lines 123-145, one iteration: resolve the slot, move to
`(x+dx, y+dy)`, shift back by `x_align`, record the anchor, rotate and
draw, then set the cursor to the anchor plus the glyph's advance with
`x_align` restored on the horizontal axis.  Returns the new cursor and
the glyph placement. -/
def textStep (m : Char → TextExtents) (x_align last_r : ℝ) (cur : ℝ × ℝ)
    (slot : Slot) (letter : Char) : (ℝ × ℝ) × GlyphPlacement :=
  let rs := resolveSlot cur last_r slot
  let anchor := (rs.x + rs.dx - x_align, rs.y + rs.dy)
  ((anchor.1 + (m letter).x_advance + x_align, anchor.2 + (m letter).y_advance),
   ⟨anchor, rs.r, letter⟩)

/-- The `for` loop of lines 123-145 over the zipped letters, threading
the shared cursor and collecting the placements in order. -/
def textLoop (m : Char → TextExtents) (x_align last_r : ℝ) :
    (ℝ × ℝ) → List (Slot × Char) → (ℝ × ℝ) × List GlyphPlacement
  | cur, [] => (cur, [])
  | cur, (slot, c) :: rest =>
    let st := textStep m x_align last_r cur slot c
    let res := textLoop m x_align last_r st.1 rest
    (res.1, st.2 :: res.2)

/-- `text(surface, node)`: explicit-array layout.  `measure` abstracts
`surface.context.text_extents`; the returned pair is the final
`surface.cursor_position` and the emitted glyph placements.  The guard
of lines 118-119 returns before any per-character work when the text
content is empty. -/
def text (measure : List Char → TextExtents) (node : TextNode)
    (cursor0 : ℝ × ℝ) : (ℝ × ℝ) × List GlyphPlacement :=
  let ext := measure node.content
  let x_align := xAlign node.textAnchor ext.width ext.x_bearing
  if node.content = [] then (cursor0, [])
  else
    let arrs := textArrays node
    textLoop (fun c => measure [c]) x_align (lastR arrs.2.2.2.2) cursor0
      (zip_letters arrs.1 arrs.2.1 arrs.2.2.1 arrs.2.2.2.1 arrs.2.2.2.2
        node.content)

/-- Output of one character of path layout: the translation point (the
previous point on the path), the rotation (tangent angle plus the node's
`rotate` attribute), the secondary vertical translation (the node's `y`
attribute, applied in rotated space), and the character. -/
structure PathGlyph where
  pos : ℝ × ℝ
  rot : ℝ
  yOffset : ℝ
  letter : Char

/-- A `textPath` node's attribute data, with unit resolution already
performed: `startOffset`, `letter-spacing`, `x` and `y` resolve to 0
when absent (`units.size` returns 0 for a missing value), `rotate`
defaults to 0 (line 188). -/
structure TextPathNode where
  href : Option (List Char)
  startOffset : ℝ
  letterSpacing : ℝ
  rotate : ℝ
  xAttr : ℝ
  yAttr : ℝ
  content : List Char

/-- The per-surface state read and written by `text_path`:
`surface.cursor_position`, `surface.total_width`, and the mapping
`surface.paths` from identifiers to (already drawn and flattened)
paths. -/
structure PTSurface where
  cursor : ℝ × ℝ
  total_width : ℝ
  paths : List (List Char × CPath)

/-- Lines 177-193, the `for letter in node.text` loop: advance
`total_width` by the glyph's `x_advance` plus the letter spacing, query
the point at the new `total_width`; on `None`, `continue` (skip the
character); otherwise emit the glyph at the previous point with the
tangent angle and advance the previous point.  Returns the final
`total_width` with the placements. -/
def textPathLoop (m : Char → TextExtents) (node : TextPathNode) (cp : CPath) :
    (ℝ × ℝ) → ℝ → List Char → Except PyErr (ℝ × List PathGlyph)
  | _, tw, [] => .ok (tw, [])
  | p, tw, c :: rest =>
    let tw' := tw + ((m c).x_advance + node.letterSpacing)
    match point_following_path cp tw' with
    | .error e => .error e
    | .ok none => textPathLoop m node cp p tw' rest
    | .ok (some p2) =>
      match textPathLoop m node cp p2 tw' rest with
      | .error e => .error e
      | .ok (twf, gs) =>
        .ok (twf,
          ⟨p, point_angle p.1 p.2 p2.1 p2.2 + node.rotate, node.yAttr, c⟩ :: gs)

/-- `id_path.startswith("#")` of line 154, on the char-list model of
Python strings: the string starts with the character `#`. -/
def startsWithHash : List Char → Bool
  | [] => false
  | c :: _ => c = '#'

/-- `text_path(surface, node)`: text on a path.  Returns early (keeping
the surface state and emitting nothing) when the `xlink:href` attribute
is absent or does not start with `#`, or when the named path is unknown.
Otherwise adds the resolved `startOffset` to `total_width`, takes the
initial point — where Python's `x, y = point_following_path(...)`
raises `TypeError` if the query returns `None` — and runs the letter
loop; afterwards the cursor is set to the node's nominal `(x, y)`. -/
def text_path (m : Char → TextExtents) (node : TextPathNode) (s : PTSurface) :
    Except PyErr (PTSurface × List PathGlyph) :=
  let id0 := node.href.getD []
  if startsWithHash id0 then
    match s.paths.lookup (id0.drop 1) with
    | none => .ok (s, [])
    | some cpath =>
      let tw0 := s.total_width + node.startOffset
      match point_following_path cpath tw0 with
      | .error e => .error e
      | .ok none => .error .typeError
      | .ok (some p0) =>
        match textPathLoop m node cpath p0 tw0 node.content with
        | .error e => .error e
        | .ok (twf, gs) =>
          .ok ({ cursor := (node.xAttr, node.yAttr), total_width := twf,
                 paths := s.paths }, gs)
  else
    .ok (s, [])

/-! ### Concrete fixtures used to evaluate the code -/

/-- A horizontal segment of length 10 from the origin. -/
def seg10 : CPath := [.moveTo (0, 0), .lineTo (10, 0)]

/-- A horizontal segment of length 30 from the origin. -/
def seg30 : CPath := [.moveTo (0, 0), .lineTo (30, 0)]

/-- A metrics stub: every glyph advances by 3. -/
def mono3 : Char → TextExtents := fun _ => ⟨0, 0, 0, 0, 3, 0⟩

/-- A metrics stub: every glyph advances by 12. -/
def mono12 : Char → TextExtents := fun _ => ⟨0, 0, 0, 0, 12, 0⟩

/-- A metrics stub: `a` advances by 20, every other glyph by 3. -/
def mWide : Char → TextExtents :=
  fun c => if c = 'a' then ⟨0, 0, 0, 0, 20, 0⟩ else ⟨0, 0, 0, 0, 3, 0⟩

/-- A path-text node referencing `#p` with four characters and all
numeric attributes zero. -/
def nodeABCD : TextPathNode :=
  ⟨some ['#', 'p'], 0, 0, 0, 0, 0, ['a', 'b', 'c', 'd']⟩

/-- A path-text node referencing `#p` with two characters and a
negative letter-spacing of -8. -/
def nodeNegSpacing : TextPathNode :=
  ⟨some ['#', 'p'], 0, -8, 0, 0, 0, ['a', 'b']⟩

/-! ### Evaluation lemmas for the geometry -/

theorem abs_mk_eq_distance (x1 y1 x2 y2 : ℝ) :
    Complex.abs ⟨x2 - x1, y2 - y1⟩ = distance x1 y1 x2 y2 := by
  rw [Complex.abs_apply, Complex.normSq_mk, distance]
  ring_nf

theorem cos_point_angle (x1 y1 x2 y2 : ℝ) (h : ¬(x2 = x1 ∧ y2 = y1)) :
    Real.cos (point_angle x1 y1 x2 y2) = (x2 - x1) / distance x1 y1 x2 y2 := by
  have hz : (⟨x2 - x1, y2 - y1⟩ : ℂ) ≠ 0 := by
    intro h0
    exact h ⟨sub_eq_zero.mp (congrArg Complex.re h0),
      sub_eq_zero.mp (congrArg Complex.im h0)⟩
  rw [point_angle, Complex.cos_arg hz, abs_mk_eq_distance]

theorem sin_point_angle (x1 y1 x2 y2 : ℝ) :
    Real.sin (point_angle x1 y1 x2 y2) = (y2 - y1) / distance x1 y1 x2 y2 := by
  rw [point_angle, Complex.sin_arg, abs_mk_eq_distance]

theorem dist_horiz (x1 x2 y : ℝ) (h : x1 ≤ x2) :
    distance x1 y x2 y = x2 - x1 := by
  rw [distance]
  simp only [sub_self]
  rw [show (0 : ℝ) ^ 2 = 0 by norm_num, add_zero, Real.sqrt_sq (by linarith)]

theorem dist_vert (x y1 y2 : ℝ) (h : y1 ≤ y2) :
    distance x y1 x y2 = y2 - y1 := by
  rw [distance]
  simp only [sub_self]
  rw [show (0 : ℝ) ^ 2 = 0 by norm_num, zero_add, Real.sqrt_sq (by linarith)]

theorem point_angle_horiz (x1 x2 y : ℝ) (h : x1 ≤ x2) :
    point_angle x1 y x2 y = 0 := by
  have hc : (⟨x2 - x1, y - y⟩ : ℂ) = ((x2 - x1 : ℝ) : ℂ) := by
    simp [Complex.ext_iff]
  rw [point_angle, hc, Complex.arg_ofReal_of_nonneg (by linarith)]

/-- Full evaluation of `point_following_path` on a single horizontal
segment from the origin. -/
theorem pfp_horiz (L w : ℝ) (hL : 0 < L) :
    point_following_path [.moveTo (0, 0), .lineTo (L, 0)] w =
      if L < w then .ok none else .ok (some (w, 0)) := by
  have hd : distance 0 0 L 0 = L := by simpa using dist_horiz 0 L 0 hL.le
  simp only [point_following_path, point_following_path_go, hd, zero_add]
  split_ifs with hc
  · rfl
  · rw [cos_point_angle 0 0 L 0 (by intro hh; exact hL.ne' hh.1),
      sin_point_angle 0 0 L 0, hd]
    have : (L - 0) / L * (L - (L - w)) + 0 = w := by
      field_simp
    rw [this]
    norm_num

/-- A `none` answer of the path walker is preserved when the queried
distance grows. -/
theorem pfp_go_none_mono (w w' : ℝ) (hw : w ≤ w') (rest : CPath) :
    ∀ (old? : Option (ℝ × ℝ)) (total : ℝ),
      point_following_path_go w old? total rest = .ok none →
      point_following_path_go w' old? total rest = .ok none := by
  induction rest with
  | nil =>
      intro old? total h
      simp [point_following_path_go]
  | cons it rest ih =>
      intro old? total h
      cases it with
      | moveTo p =>
          simp only [point_following_path_go] at h ⊢
          exact ih _ _ h
      | lineTo p =>
          cases old? with
          | none => simp [point_following_path_go] at h
          | some old =>
              simp only [point_following_path_go] at h ⊢
              by_cases hc : total + distance old.1 old.2 p.1 p.2 < w
              · rw [if_pos hc] at h
                rw [if_pos (lt_of_lt_of_le hc hw)]
                exact ih _ _ h
              · rw [if_neg hc] at h
                simp at h

theorem pfp_none_mono (cp : CPath) (w w' : ℝ) (hw : w ≤ w')
    (h : point_following_path cp w = .ok none) :
    point_following_path cp w' = .ok none :=
  pfp_go_none_mono w w' hw cp none 0 h

/-- C10: in a path-text run the letter loop advances `total_width` by
(glyph horizontal advance + letter-spacing) for every character of the
string, including characters whose query returned none — so the final
`total_width` is the initial one plus the sum over all characters,
independent of how many glyphs were placed. -/
theorem C10_total_width (m : Char → TextExtents) (node : TextPathNode)
    (cp : CPath) (chars : List Char) :
    ∀ (p : ℝ × ℝ) (tw tw' : ℝ) (gs : List PathGlyph),
      textPathLoop m node cp p tw chars = .ok (tw', gs) →
      tw' = tw + (chars.map
        (fun c => (m c).x_advance + node.letterSpacing)).sum := by
  induction chars with
  | nil =>
      intro p tw tw' gs h
      simp only [textPathLoop, Except.ok.injEq, Prod.mk.injEq] at h
      simp [← h.1]
  | cons c rest ih =>
      intro p tw tw' gs h
      simp only [textPathLoop] at h
      cases hq : point_following_path cp
          (tw + ((m c).x_advance + node.letterSpacing)) with
      | error e => rw [hq] at h; simp at h
      | ok op =>
          rw [hq] at h
          cases op with
          | none =>
              have := ih _ _ _ _ h
              simp only [List.map_cons, List.sum_cons, this]
              ring
          | some p2 =>
              simp only at h
              cases hr : textPathLoop m node cp p2
                  (tw + ((m c).x_advance + node.letterSpacing)) rest with
              | error e => rw [hr] at h; simp at h
              | ok pr =>
                  rw [hr] at h
                  simp only [Except.ok.injEq, Prod.mk.injEq] at h
                  have := ih _ _ _ _ hr
                  simp only [List.map_cons, List.sum_cons, ← h.1, this]
                  ring

/-- Under a `none` answer at the current `total_width` and nonnegative
per-character increments, the whole remaining loop emits nothing. -/
theorem textPathLoop_none_all (m : Char → TextExtents) (node : TextPathNode)
    (cp : CPath) (chars : List Char) :
    ∀ (p : ℝ × ℝ) (tw : ℝ),
      (∀ c ∈ chars, 0 ≤ (m c).x_advance + node.letterSpacing) →
      point_following_path cp tw = .ok none →
      textPathLoop m node cp p tw chars =
        .ok (tw + (chars.map
          (fun c => (m c).x_advance + node.letterSpacing)).sum, []) := by
  induction chars with
  | nil =>
      intro p tw _ _
      simp [textPathLoop]
  | cons c rest ih =>
      intro p tw hpos hnone
      have hinc : 0 ≤ (m c).x_advance + node.letterSpacing :=
        hpos c (List.mem_cons_self c rest)
      have hnone' : point_following_path cp
          (tw + ((m c).x_advance + node.letterSpacing)) = .ok none :=
        pfp_none_mono cp tw _ (by linarith) hnone
      simp only [textPathLoop, hnone']
      rw [ih _ _ (fun c' hc' => hpos c' (List.mem_cons_of_mem c hc')) hnone']
      simp only [List.map_cons, List.sum_cons, Except.ok.injEq, Prod.mk.injEq]
      exact ⟨by ring, trivial⟩

/-! ### Claim theorems -/

/-- C4: for the path `MoveTo(0,0), LineTo(10,0), LineTo(10,10)`,
`path_length` is 20, `point_following_path` at 5 is (5,0), at 15 is
(10,5), and at 25 is none: lengths sum the Euclidean distances of the
`LineTo` segments, and the point at a distance backs off the overshoot
along the current segment's direction from its start point. -/
theorem C4_path_measures :
    path_length [.moveTo (0, 0), .lineTo (10, 0), .lineTo (10, 10)] = .ok 20
    ∧ point_following_path [.moveTo (0, 0), .lineTo (10, 0), .lineTo (10, 10)] 5
        = .ok (some (5, 0))
    ∧ point_following_path [.moveTo (0, 0), .lineTo (10, 0), .lineTo (10, 10)] 15
        = .ok (some (10, 5))
    ∧ point_following_path [.moveTo (0, 0), .lineTo (10, 0), .lineTo (10, 10)] 25
        = .ok none := by
  have hd1 : distance 0 0 10 0 = 10 := by
    simpa using dist_horiz 0 10 0 (by norm_num)
  have hd2 : distance 10 0 10 10 = 10 := by
    simpa using dist_vert 10 0 10 (by norm_num)
  have hc1 := cos_point_angle 0 0 10 0 (by norm_num)
  have hs1 := sin_point_angle 0 0 10 0
  have hc2 := cos_point_angle 10 0 10 10 (by norm_num)
  have hs2 := sin_point_angle 10 0 10 10
  refine ⟨?_, ?_, ?_, ?_⟩
  · norm_num [path_length, path_length_go, hd1, hd2]
  · norm_num [point_following_path, point_following_path_go, hd1, hd2,
      hc1, hs1, hc2, hs2]
  · norm_num [point_following_path, point_following_path_go, hd1, hd2,
      hc1, hs1, hc2, hs2]
  · norm_num [point_following_path, point_following_path_go, hd1, hd2,
      hc1, hs1, hc2, hs2]

/-- C5: a path made of a single `MoveTo` has length 0 and
`point_following_path` returns none there for every positive
distance. -/
theorem C5_single_moveto (p : ℝ × ℝ) (d : ℝ) (hd : 0 < d) :
    path_length [.moveTo p] = .ok 0
    ∧ point_following_path [.moveTo p] d = .ok none :=
  ⟨rfl, rfl⟩

theorem C5_witness :
    0 < (1 : ℝ)
    ∧ (path_length [.moveTo ((2 : ℝ), (3 : ℝ))] = .ok 0
       ∧ point_following_path [.moveTo ((2 : ℝ), (3 : ℝ))] 1 = .ok none) :=
  ⟨by norm_num, C5_single_moveto (2, 3) 1 (by norm_num)⟩

/-- C7: the text-anchor alignment offset is 0 for `start`,
`width/2 + x_bearing` for `middle` and `width + x_bearing` for `end`;
in particular ink width 40 with left-bearing 2 gives 22 for `middle`
and 42 for `end`. -/
theorem C7_x_align (w b : ℝ) :
    xAlign (some "start") w b = 0
    ∧ xAlign (some "middle") w b = w / 2 + b
    ∧ xAlign (some "end") w b = w + b
    ∧ xAlign (some "middle") 40 2 = 22
    ∧ xAlign (some "end") 40 2 = 42
    ∧ xAlign (some "start") 40 2 = 0 := by
  refine ⟨?_, ?_, ?_, ?_, ?_, ?_⟩
  · simp only [xAlign]; rw [if_neg (by decide), if_neg (by decide)]
  · simp only [xAlign]; rw [if_pos (by decide)]
  · simp only [xAlign]; rw [if_neg (by decide), if_pos (by decide)]
  · simp only [xAlign]; rw [if_pos (by decide)]; norm_num
  · simp only [xAlign]; rw [if_neg (by decide), if_pos (by decide)]; norm_num
  · simp only [xAlign]; rw [if_neg (by decide), if_neg (by decide)]

/-- C9: a text element with empty content performs no per-character
layout and leaves the shared cursor unchanged. -/
theorem C9_empty_text (measure : List Char → TextExtents) (node : TextNode)
    (cursor0 : ℝ × ℝ) (h : node.content = []) :
    text measure node cursor0 = (cursor0, []) := by
  simp [text, h]

theorem C9_witness :
    (TextNode.mk none none none none none none []).content = []
    ∧ text (fun _ => ⟨0, 0, 0, 0, 0, 0⟩)
        (TextNode.mk none none none none none none []) (5, 7) = ((5, 7), []) := by
  exact ⟨rfl, C9_empty_text _ _ _ rfl⟩

/-- C8: one step of explicit-array layout — the glyph's pre-rotation
anchor is the resolved `(x+dx, y+dy)` shifted back by the alignment
offset, the next cursor is the anchor plus the glyph's own advance with
the alignment offset restored along the horizontal axis, unspecified
`x`/`y` resolve to the running cursor, and the loop threads that cursor
into the remaining characters. -/
theorem C8_cursor_update (m : Char → TextExtents) (x_align last_r : ℝ)
    (cur : ℝ × ℝ) (slot : Slot) (c : Char) (rest : List (Slot × Char)) :
    (textStep m x_align last_r cur slot c).2.anchor
        = ((resolveSlot cur last_r slot).x + (resolveSlot cur last_r slot).dx
             - x_align,
           (resolveSlot cur last_r slot).y + (resolveSlot cur last_r slot).dy)
    ∧ (textStep m x_align last_r cur slot c).1
        = ((textStep m x_align last_r cur slot c).2.anchor.1
             + (m c).x_advance + x_align,
           (textStep m x_align last_r cur slot c).2.anchor.2
             + (m c).y_advance)
    ∧ (slot.x? = none → (resolveSlot cur last_r slot).x = cur.1)
    ∧ (slot.y? = none → (resolveSlot cur last_r slot).y = cur.2)
    ∧ textLoop m x_align last_r cur ((slot, c) :: rest)
        = ((textLoop m x_align last_r
              (textStep m x_align last_r cur slot c).1 rest).1,
           (textStep m x_align last_r cur slot c).2
             :: (textLoop m x_align last_r
                  (textStep m x_align last_r cur slot c).1 rest).2) := by
  refine ⟨rfl, rfl, ?_, ?_, rfl⟩
  · intro h; simp [resolveSlot, h]
  · intro h; simp [resolveSlot, h]

theorem C8_witness :
    (resolveSlot ((10 : ℝ), (20 : ℝ)) 5 ⟨none, none, none, none, none⟩).x = 10
    ∧ (resolveSlot ((10 : ℝ), (20 : ℝ)) 5 ⟨none, none, none, none, none⟩).y = 20 :=
  ⟨(C8_cursor_update (fun _ => ⟨0, 0, 0, 0, 3, 1⟩) 2 5 (10, 20)
      ⟨none, none, none, none, none⟩ 'a' []).2.2.1 rfl,
   (C8_cursor_update (fun _ => ⟨0, 0, 0, 0, 3, 1⟩) 2 5 (10, 20)
      ⟨none, none, none, none, none⟩ 'a' []).2.2.2.1 rfl⟩

/-- C3: attribute broadcasting — the zipped slot at index `i` holds each
array's value at `i` (`none` past its end); the resolved rotation beyond
the rotation array's length is the last value of the original array
converted to radians, and 0 when the attribute is absent; resolved `x`
and `y` beyond their arrays fall back to the current cursor coordinate;
resolved `dx` and `dy` beyond their arrays fall back to the constant 0;
and rotation array `[10, 20]` against 5 characters broadcasts to
`[10, 20, 20, 20, 20]` in degrees. -/
theorem C3_broadcast (node : TextNode) (cur : ℝ × ℝ) (i : ℕ)
    (hi : i < node.content.length) :
    (zip_letters (textArrays node).1 (textArrays node).2.1
        (textArrays node).2.2.1 (textArrays node).2.2.2.1
        (textArrays node).2.2.2.2 node.content).get? i
      = some (slotAt (textArrays node).1 (textArrays node).2.1
          (textArrays node).2.2.1 (textArrays node).2.2.2.1
          (textArrays node).2.2.2.2 i, node.content.get ⟨i, hi⟩)
    ∧ (∀ (rl : List ℝ) (h2 : rl ≠ []), node.rots = some rl → rl.length ≤ i →
        (broadcastAt node cur i).r = radians (rl.getLast h2))
    ∧ (node.rots = none → (broadcastAt node cur i).r = 0)
    ∧ ((textArrays node).1.length ≤ i → (broadcastAt node cur i).x = cur.1)
    ∧ ((textArrays node).2.1.length ≤ i → (broadcastAt node cur i).y = cur.2)
    ∧ (∀ dv : List ℝ, node.dxs = some dv → dv.length ≤ i →
        (broadcastAt node cur i).dx = 0)
    ∧ (∀ dv : List ℝ, node.dys = some dv → dv.length ≤ i →
        (broadcastAt node cur i).dy = 0)
    ∧ (zip_letters [] [] [0] [0] ([10, 20].map radians)
          ['a', 'b', 'c', 'd', 'e']).map
          (fun sc => (resolveSlot (0, 0) (lastR ([10, 20].map radians)) sc.1).r)
        = [radians 10, radians 20, radians 20, radians 20, radians 20] := by
  refine ⟨?_, ?_, ?_, ?_, ?_, ?_, ?_, ?_⟩
  · simp [zip_letters, List.get?_eq_getElem?, List.getElem?_map,
      List.getElem?_enum, List.getElem?_eq_getElem hi, List.get_eq_getElem]
  · intro rl h2 hrot hlen
    have harr : (textArrays node).2.2.2.2 = rl.map radians := by
      simp [textArrays, hrot]
    simp [broadcastAt, resolveSlot, slotAt, harr, lastR,
      List.get?_eq_none.mpr (by simpa using hlen),
      List.getElem?_eq_none hlen,
      List.getLast?_map, List.getLast?_eq_getLast_of_ne_nil h2]
  · intro hrot
    have harr : (textArrays node).2.2.2.2 = [0] := by
      simp [textArrays, hrot]
    cases i with
    | zero => simp [broadcastAt, resolveSlot, slotAt, harr, lastR]
    | succ n => simp [broadcastAt, resolveSlot, slotAt, harr, lastR]
  · intro hlen
    simp [broadcastAt, resolveSlot, slotAt, List.get?_eq_none.mpr hlen,
      List.getElem?_eq_none hlen]
  · intro hlen
    simp [broadcastAt, resolveSlot, slotAt, List.get?_eq_none.mpr hlen,
      List.getElem?_eq_none hlen]
  · intro dv hdv hlen
    have harr : (textArrays node).2.2.1 = dv := by simp [textArrays, hdv]
    simp [broadcastAt, resolveSlot, slotAt, harr,
      List.get?_eq_none.mpr hlen, List.getElem?_eq_none hlen]
  · intro dv hdv hlen
    have harr : (textArrays node).2.2.2.1 = dv := by simp [textArrays, hdv]
    simp [broadcastAt, resolveSlot, slotAt, harr,
      List.get?_eq_none.mpr hlen, List.getElem?_eq_none hlen]
  · rfl

theorem C3_witness :
    (broadcastAt ⟨some [1], some [2], some [3], some [4], some [10, 20], none,
        ['a', 'b', 'c']⟩ (7, 8) 2).r = radians 20
    ∧ (broadcastAt ⟨some [1], some [2], some [3], some [4], some [10, 20], none,
        ['a', 'b', 'c']⟩ (7, 8) 2).x = 7
    ∧ (broadcastAt ⟨some [1], some [2], some [3], some [4], some [10, 20], none,
        ['a', 'b', 'c']⟩ (7, 8) 2).dx = 0 := by
  have h := C3_broadcast ⟨some [1], some [2], some [3], some [4], some [10, 20],
    none, ['a', 'b', 'c']⟩ (7, 8) 2 (by decide)
  refine ⟨?_, ?_, ?_⟩
  · exact (h.2.1 [10, 20] (List.cons_ne_nil _ _) rfl (by decide)).trans rfl
  · exact h.2.2.2.1 (by decide)
  · exact h.2.2.2.2.2.1 [3] rfl (by decide)

/-- C6: when the cross-reference attribute is absent, does not start
with `#`, or names an identifier with no known path, `text_path` is a
no-op — no glyph placements, no error, and the surface state (cursor
and `total_width`) is returned unchanged. -/
theorem C6_noop (m : Char → TextExtents) (node : TextPathNode) (s : PTSurface) :
    (node.href = none → text_path m node s = .ok (s, []))
    ∧ (∀ str, node.href = some str → startsWithHash str = false →
        text_path m node s = .ok (s, []))
    ∧ (∀ str, node.href = some str → startsWithHash str = true →
        s.paths.lookup (str.drop 1) = none →
        text_path m node s = .ok (s, [])) := by
  refine ⟨?_, ?_, ?_⟩
  · intro h
    simp only [text_path, h, Option.getD_none]
    rw [if_neg (by decide)]
  · intro str h hs
    simp only [text_path, h, Option.getD_some]
    rw [if_neg (by simp [hs])]
  · intro str h hs hl
    simp only [text_path, h, Option.getD_some]
    rw [if_pos hs, hl]

theorem C6_witness :
    text_path mono3 ⟨none, 0, 0, 0, 0, 0, ['a']⟩
        ⟨(1, 2), 5, [(['p'], seg10)]⟩ = .ok (⟨(1, 2), 5, [(['p'], seg10)]⟩, [])
    ∧ text_path mono3 ⟨some ['a', 'b', 'c'], 0, 0, 0, 0, 0, ['a']⟩
        ⟨(1, 2), 5, [(['p'], seg10)]⟩ = .ok (⟨(1, 2), 5, [(['p'], seg10)]⟩, [])
    ∧ text_path mono3 ⟨some ['#', 'q'], 0, 0, 0, 0, 0, ['a']⟩
        ⟨(1, 2), 5, [(['p'], seg10)]⟩ = .ok (⟨(1, 2), 5, [(['p'], seg10)]⟩, []) :=
  ⟨(C6_noop mono3 ⟨none, 0, 0, 0, 0, 0, ['a']⟩
      ⟨(1, 2), 5, [(['p'], seg10)]⟩).1 rfl,
   (C6_noop mono3 ⟨some ['a', 'b', 'c'], 0, 0, 0, 0, 0, ['a']⟩
      ⟨(1, 2), 5, [(['p'], seg10)]⟩).2.1 ['a', 'b', 'c'] rfl (by decide),
   (C6_noop mono3 ⟨some ['#', 'q'], 0, 0, 0, 0, 0, ['a']⟩
      ⟨(1, 2), 5, [(['p'], seg10)]⟩).2.2 ['#', 'q'] rfl (by decide) rfl⟩

/-- C1 (evaluation at the failing input): with a resolvable path of
total length 10 and a resolved `startOffset` of 25, the initial
`x, y = point_following_path(...)` unpacks `None` and `text_path`
raises `TypeError` instead of producing nothing. -/
theorem C1_code_bug_eval :
    text_path mono3 ⟨some ['#', 'p'], 25, 0, 0, 0, 0, ['a']⟩
      ⟨(0, 0), 0, [(['p'], seg10)]⟩ = .error .typeError := by
  have hq : point_following_path seg10 ((0 : ℝ) + 25) = .ok none := by
    simp only [seg10]
    rw [pfp_horiz 10 ((0 : ℝ) + 25) (by norm_num), if_pos (by norm_num)]
  simp only [text_path, Option.getD_some]
  rw [if_pos (by decide)]
  have hl : ([(['p'], seg10)] : List (List Char × CPath)).lookup
      (['#', 'p'].drop 1) = some seg10 := rfl
  simp only [hl, hq]

theorem C10_witness :
    textPathLoop mono3 ⟨some ['#', 'p'], 0, 0, 0, 0, 0, ['a']⟩ seg10 (0, 0) 0 ['a']
      = .ok (0 + ((mono3 'a').x_advance + 0), [⟨(0, 0), 0, 0, 'a'⟩])
    ∧ (0 : ℝ) + ((mono3 'a').x_advance + 0)
      = 0 + (List.map (fun c => (mono3 c).x_advance
          + (⟨some ['#', 'p'], 0, 0, 0, 0, 0, ['a']⟩ : TextPathNode).letterSpacing)
          ['a']).sum := by
  have heval : textPathLoop mono3 ⟨some ['#', 'p'], 0, 0, 0, 0, 0, ['a']⟩ seg10
      (0, 0) 0 ['a']
      = .ok (0 + ((mono3 'a').x_advance + 0), [⟨(0, 0), 0, 0, 'a'⟩]) := by
    have hq : point_following_path seg10 ((0 : ℝ) + ((mono3 'a').x_advance + 0))
        = .ok (some ((0 : ℝ) + ((mono3 'a').x_advance + 0), 0)) := by
      simp only [seg10, mono3]
      rw [pfp_horiz 10 _ (by norm_num), if_neg (by norm_num)]
    simp only [textPathLoop, hq]
    have ha : point_angle 0 0 (3 : ℝ) 0 = 0 :=
      point_angle_horiz 0 3 0 (by norm_num)
    simp [ha, mono3]
  exact ⟨heval,
    C10_total_width mono3 ⟨some ['#', 'p'], 0, 0, 0, 0, 0, ['a']⟩ seg10 ['a']
      (0, 0) 0 _ _ heval⟩

/-- C2 (counterexample): a character whose query returns none does not
silence the rest of the run.  With letter-spacing -8 on a path of length
10, the query for the first character `a` (advance 20, so at
total_width 12) returns none, yet the following character `b` (advance
3, total_width back to 7) is still placed — one glyph is emitted for a
character after a none-query character, contradicting "that character
and all remaining characters produce no glyph placement". -/
theorem C2_counterexample :
    point_following_path seg10 12 = .ok none
    ∧ text_path mWide nodeNegSpacing ⟨(0, 0), 0, [(['p'], seg10)]⟩
        = .ok (⟨(0, 0), 7, [(['p'], seg10)]⟩, [⟨(0, 0), 0, 0, 'b'⟩]) := by
  constructor
  · simp only [seg10]
    rw [pfp_horiz 10 12 (by norm_num), if_pos (by norm_num)]
  · have ma : mWide 'a' = ⟨0, 0, 0, 0, 20, 0⟩ := rfl
    have mb : mWide 'b' = ⟨0, 0, 0, 0, 3, 0⟩ := rfl
    have hq0 : point_following_path seg10 0 = .ok (some (0, 0)) := by
      simp only [seg10]
      rw [pfp_horiz 10 0 (by norm_num), if_neg (by norm_num)]
    have hq1 : point_following_path seg10 12 = .ok none := by
      simp only [seg10]
      rw [pfp_horiz 10 12 (by norm_num), if_pos (by norm_num)]
    have hq2 : point_following_path seg10 7 = .ok (some (7, 0)) := by
      simp only [seg10]
      rw [pfp_horiz 10 7 (by norm_num), if_neg (by norm_num)]
    have ha : point_angle 0 0 (7 : ℝ) 0 = 0 :=
      point_angle_horiz 0 7 0 (by norm_num)
    simp only [text_path, nodeNegSpacing, Option.getD_some]
    rw [if_pos (by decide)]
    norm_num [textPathLoop, List.lookup, ma, mb, hq0, hq1, hq2, ha]

/-- C2 (amended): a character whose query at the updated `total_width`
returns none produces no glyph placement and no error — the loop simply
moves on to the remaining characters; whenever the remaining
per-character increments are nonnegative the none answer persists, so
all remaining characters are skipped and the loop ends with no further
placements; in particular, for the run where every query from the third
character onward returns none, exactly two glyphs are placed and the
run completes without error. -/
theorem C2_skip_and_truncate (m : Char → TextExtents) (node : TextPathNode)
    (cp : CPath) (p : ℝ × ℝ) (tw : ℝ) (c : Char) (rest : List Char)
    (hq : point_following_path cp
      (tw + ((m c).x_advance + node.letterSpacing)) = .ok none) :
    textPathLoop m node cp p tw (c :: rest)
      = textPathLoop m node cp p
          (tw + ((m c).x_advance + node.letterSpacing)) rest
    ∧ ((∀ c' ∈ rest, 0 ≤ (m c').x_advance + node.letterSpacing) →
        textPathLoop m node cp p tw (c :: rest)
          = .ok (tw + ((c :: rest).map
              (fun c' => (m c').x_advance + node.letterSpacing)).sum, []))
    ∧ point_following_path seg30 36 = .ok none
    ∧ point_following_path seg30 48 = .ok none
    ∧ text_path mono12 nodeABCD ⟨(0, 0), 0, [(['p'], seg30)]⟩
        = .ok (⟨(0, 0), 48, [(['p'], seg30)]⟩,
            [⟨(0, 0), 0, 0, 'a'⟩, ⟨(12, 0), 0, 0, 'b'⟩]) := by
  refine ⟨?_, ?_, ?_, ?_, ?_⟩
  · simp only [textPathLoop, hq]
  · intro hpos
    have h1 : textPathLoop m node cp p tw (c :: rest)
        = textPathLoop m node cp p
            (tw + ((m c).x_advance + node.letterSpacing)) rest := by
      simp only [textPathLoop, hq]
    rw [h1, textPathLoop_none_all m node cp rest p _ hpos hq]
    simp only [List.map_cons, List.sum_cons, Except.ok.injEq, Prod.mk.injEq]
    exact ⟨by ring, trivial⟩
  · simp only [seg30]
    rw [pfp_horiz 30 36 (by norm_num), if_pos (by norm_num)]
  · simp only [seg30]
    rw [pfp_horiz 30 48 (by norm_num), if_pos (by norm_num)]
  · have mm : ∀ c', mono12 c' = ⟨0, 0, 0, 0, 12, 0⟩ := fun _ => rfl
    have hq0 : point_following_path seg30 0 = .ok (some (0, 0)) := by
      simp only [seg30]
      rw [pfp_horiz 30 0 (by norm_num), if_neg (by norm_num)]
    have hq12 : point_following_path seg30 12 = .ok (some (12, 0)) := by
      simp only [seg30]
      rw [pfp_horiz 30 12 (by norm_num), if_neg (by norm_num)]
    have hq24 : point_following_path seg30 24 = .ok (some (24, 0)) := by
      simp only [seg30]
      rw [pfp_horiz 30 24 (by norm_num), if_neg (by norm_num)]
    have hq36 : point_following_path seg30 36 = .ok none := by
      simp only [seg30]
      rw [pfp_horiz 30 36 (by norm_num), if_pos (by norm_num)]
    have hq48 : point_following_path seg30 48 = .ok none := by
      simp only [seg30]
      rw [pfp_horiz 30 48 (by norm_num), if_pos (by norm_num)]
    have ha1 : point_angle 0 0 (12 : ℝ) 0 = 0 :=
      point_angle_horiz 0 12 0 (by norm_num)
    have ha2 : point_angle 12 0 (24 : ℝ) 0 = 0 :=
      point_angle_horiz 12 24 0 (by norm_num)
    simp only [text_path, nodeABCD, Option.getD_some]
    rw [if_pos (by decide)]
    norm_num [textPathLoop, List.lookup, mm, hq0, hq12, hq24, hq36, hq48,
      ha1, ha2]

theorem C2_witness :
    textPathLoop mono12 nodeABCD seg30 (24, 0) 24 ['c', 'd']
      = .ok (24 + (['c', 'd'].map
          (fun c' => (mono12 c').x_advance + nodeABCD.letterSpacing)).sum,
        []) := by
  have harg : (24 : ℝ) + ((mono12 'c').x_advance + nodeABCD.letterSpacing)
      = 36 := by
    norm_num [mono12, nodeABCD]
  have hq : point_following_path seg30
      (24 + ((mono12 'c').x_advance + nodeABCD.letterSpacing)) = .ok none := by
    rw [harg]
    simp only [seg30]
    rw [pfp_horiz 30 36 (by norm_num), if_pos (by norm_num)]
  exact (C2_skip_and_truncate mono12 nodeABCD seg30 (24, 0) 24 'c' ['d']
    hq).2.1 (by intro c' _; norm_num [mono12, nodeABCD])

end

end CairoSVGText
